import Mathlib

/-!
# RickRoll pay-per-call service

A shallow embedding of `rickroll/service/handler.go` and of the HTTP wiring in
`rickroll/service/main.go` (`addCORS`, the logging wrapper, `loggingResponseWriter`,
`min`, and the routing registered on `healthMux`), followed by the properties
established about them.

Conventions.
* A Go `string` is a sequence of bytes (`GoString`); slicing is by byte index.
* A Go `int` / `int64` is an `Int`; 64-bit wrap-around is explicit (`wrapInt64`).
* A Go method with a pointer receiver takes the receiver state and returns the
  new state together with its results.
* A Go panic is an explicit result: `none` of an `Option`, `Except.error` with the state
  reached, or `Outcome.panicked` with the state reached.
* Library code (`net/http`, the x402 middleware) is described by what its documentation
  says of the calls the source makes; the inner HTTP handler, a library value, is any
  sequence of calls on the response writer it is given.
-/

namespace RickRoll

/-! ## Go values -/

/-- A Go `string`: an immutable sequence of bytes. -/
abbrev GoString := List UInt8

/-- The bytes of an ASCII string literal of the source. -/
def ascii (s : String) : GoString :=
  s.data.map (fun c => UInt8.ofNat c.toNat)

/-- The range of a Go `int64`. -/
def isInt64 (x : Int) : Prop :=
  -(2 : Int) ^ 63 ≤ x ∧ x < (2 : Int) ^ 63

/-- Membership in the `int64` range can be computed. -/
@[instance]
def isInt64.decidable (x : Int) : Decidable (isInt64 x) :=
  inferInstanceAs (Decidable (-(2 : Int) ^ 63 ≤ x ∧ x < (2 : Int) ^ 63))

/-- Two's-complement reduction of an integer to the `int64` range: the value a Go
`int64` holds after an arithmetic operation whose exact result is `x`. -/
def wrapInt64 (x : Int) : Int :=
  (x + (2 : Int) ^ 63) % (2 : Int) ^ 64 - (2 : Int) ^ 63

/-- Go `time.Time`, by the two quantities an instant is made of: whole seconds
since the Unix epoch and the nanosecond within that second. -/
structure Time where
  sec : Int
  nsec : Nat
  deriving DecidableEq, Repr

/-- Go `time.Time.Unix`: seconds elapsed since the Unix epoch. -/
def Time.Unix (t : Time) : Int :=
  t.sec

/-- Go `error` value made by `fmt.Errorf` with a constant message. -/
structure GoError where
  msg : GoString
  deriving DecidableEq, Repr

/-! ## Payment context (library `grpc-gateway-x402`) -/

/-- The payment record of the x402 library as `GetRickRoll` reads it: the fields
`TransactionHash`, `Amount`, `TokenSymbol`, `PayerAddress` and `SettledAt`. -/
structure PaymentContext where
  TransactionHash : GoString
  Amount : GoString
  TokenSymbol : GoString
  PayerAddress : GoString
  SettledAt : Time
  deriving DecidableEq, Repr

/-- A request context (`context.Context`), reduced to what the handlers observe of it:
the payment the x402 middleware attached, if any. -/
structure Context where
  payment : Option PaymentContext
  deriving DecidableEq, Repr

/-- Library call `x402.GetPaymentFromGRPCContext(ctx)`, returning `(payment, ok)`:
`some payment` stands for `ok = true`, `none` for `ok = false`. -/
def GetPaymentFromGRPCContext (ctx : Context) : Option PaymentContext :=
  ctx.payment

/-! ## Protobuf messages (package `rickroll/proto`) -/

/-- Modelled from the spec: the generated message `pb.PaymentReceipt` is not among the
sources; its fields are those of the spec's Payment Receipt, named as `GetRickRoll`
assigns them. -/
structure PaymentReceipt where
  TransactionHash : GoString
  AmountPaid : GoString
  TokenSymbol : GoString
  PayerAddress : GoString
  SettledAt : Int
  deriving DecidableEq, Repr

/-- Modelled from the spec: the generated message `pb.GetRickRollResponse` is not among
the sources; its fields are those of the spec's Content Response, named as `GetRickRoll`
assigns them. -/
structure GetRickRollResponse where
  Lyrics : GoString
  VideoUrl : GoString
  Gif : List UInt8
  Receipt : Option PaymentReceipt
  deriving DecidableEq, Repr

/-- Modelled from the spec: the generated message `pb.TokenInfo` is not among the
sources; its fields are those of the spec's Token Info, named as `GetInfo` assigns them. -/
structure TokenInfo where
  Symbol : GoString
  Network : GoString
  ContractAddress : GoString
  deriving DecidableEq, Repr

/-- Modelled from the spec: the generated message `pb.GetInfoResponse` is not among the
sources; its fields are those of the spec's Service Info, named as `GetInfo` assigns
them. -/
structure GetInfoResponse where
  Description : GoString
  PriceUsd : GoString
  TotalRickrolls : Int
  AcceptedTokens : List TokenInfo
  deriving DecidableEq, Repr

/-- Modelled from the spec: the generated request message `pb.GetRickRollRequest` is not
among the sources; no handler reads a field of it. -/
structure GetRickRollRequest where
  deriving DecidableEq, Repr

/-- Modelled from the spec: the generated request message `pb.GetInfoRequest` is not
among the sources; no handler reads a field of it. -/
structure GetInfoRequest where
  deriving DecidableEq, Repr

/-! ## `handler.go` -/

/-- The server state: `rickrollCount int64`. -/
structure RickRollServer where
  rickrollCount : Int
  deriving DecidableEq, Repr

/-- `NewRickRollServer`: a server whose counter is 0. -/
def NewRickRollServer : RickRollServer :=
  { rickrollCount := 0 }

/-- `RickRollServer.GetRickRoll`. Returns the server state after the call, the response
pointer (`none` for `nil`) and the error (`none` for `nil`). -/
def GetRickRoll (s : RickRollServer) (ctx : Context) (_req : GetRickRollRequest) :
    RickRollServer × Option GetRickRollResponse × Option GoError :=
  match GetPaymentFromGRPCContext ctx with
  | none =>
    (s, none, some { msg := ascii "payment required but not found in context" })
  | some payment =>
    let s1 : RickRollServer := { s with rickrollCount := wrapInt64 (s.rickrollCount + 1) }
    let receipt : PaymentReceipt :=
      { TransactionHash := payment.TransactionHash
        AmountPaid := payment.Amount
        TokenSymbol := payment.TokenSymbol
        PayerAddress := payment.PayerAddress
        SettledAt := payment.SettledAt.Unix }
    (s1,
     some
      { Lyrics := ascii "Premium content goes here - add your own text"
        VideoUrl := ascii "https://www.youtube.com/embed/dQw4w9WgXcQ"
        Gif := []
        Receipt := some receipt },
     none)

/-- `RickRollServer.GetInfo`. Returns the server state after the call, the response
pointer and the error. -/
def GetInfo (s : RickRollServer) (_ctx : Context) (_req : GetInfoRequest) :
    RickRollServer × Option GetInfoResponse × Option GoError :=
  (s,
   some
    { Description := ascii "Pay-per-use service powered by x402 protocol"
      PriceUsd := ascii "0.01"
      TotalRickrolls := s.rickrollCount
      AcceptedTokens :=
        [{ Symbol := ascii "USDC"
           Network := ascii "arbitrum-one"
           ContractAddress := ascii "0xaf88d065e77c8cC2239327C5EDb3A432268e5831" }] },
   none)

/-! ## Sequences of calls on one server -/

/-- One RPC arriving at the server. -/
inductive Call where
  | rickroll (ctx : Context) (req : GetRickRollRequest)
  | info (ctx : Context) (req : GetInfoRequest)
  deriving DecidableEq, Repr

/-- What one RPC returned. -/
inductive Reply where
  | rickroll (resp : Option GetRickRollResponse) (err : Option GoError)
  | info (resp : Option GetInfoResponse) (err : Option GoError)
  deriving DecidableEq, Repr

/-- Serve one call: dispatch to the handler of that RPC. -/
def serve (s : RickRollServer) : Call → RickRollServer × Reply
  | .rickroll ctx req =>
    let r := GetRickRoll s ctx req
    (r.1, .rickroll r.2.1 r.2.2)
  | .info ctx req =>
    let r := GetInfo s ctx req
    (r.1, .info r.2.1 r.2.2)

/-- Serve a sequence of calls one after the other; the replies are in call order. -/
def serveAll (s : RickRollServer) : List Call → RickRollServer × List Reply
  | [] => (s, [])
  | c :: cs =>
    let r := serve s c
    let rest := serveAll r.1 cs
    (rest.1, r.2 :: rest.2)

/-- Whether a call is a `GetRickRoll` call whose context carries a payment. -/
def Call.isPaid : Call → Bool
  | .rickroll ctx _ => (GetPaymentFromGRPCContext ctx).isSome
  | .info _ _ => false

/-- The number of `GetRickRoll` calls of a sequence that carried a payment. -/
def paidCalls (cs : List Call) : Nat :=
  (cs.filter Call.isPaid).length

/-- The `TotalRickrolls` a `GetInfo` call reports on a server state. -/
def reportedTotal (s : RickRollServer) : Option Int :=
  (GetInfo s { payment := none } {}).2.1.map GetInfoResponse.TotalRickrolls

/-- A payment record used where the properties below need a concrete one. -/
def samplePayment : PaymentContext :=
  { TransactionHash := ascii "0xdead"
    Amount := ascii "0.01"
    TokenSymbol := ascii "USDC"
    PayerAddress := ascii "0xABC"
    SettledAt := { sec := 1700000000, nsec := 0 } }

/-- A context that carries `samplePayment`. -/
def paidContext : Context :=
  { payment := some samplePayment }

/-- A context that carries no payment. -/
def unpaidContext : Context :=
  { payment := none }

/-- Whether a call is a `GetInfo` call. -/
def Call.isInfo : Call → Bool
  | .rickroll _ _ => false
  | .info _ _ => true

/-! ## HTTP values (`net/http`) -/

/-- Go `len` of a string: its number of bytes, as an `int`. -/
def len (s : GoString) : Int :=
  s.length

/-- Go slice expression `s[:hi]` on a string: the first `hi` bytes, and a run-time
panic (`none`) when `hi` is out of the range `0 ..= len(s)`. -/
def sliceTo (s : GoString) (hi : Int) : Option GoString :=
  if 0 ≤ hi ∧ hi ≤ len s then some (s.take hi.toNat) else none

/-- Go `http.Header`, a map from canonical header name to its values; a name that is
not in the map has no values. -/
abbrev Header := GoString → List GoString

/-- An `http.Header` with no entries. -/
def Header.empty : Header :=
  fun _ => []

/-- Go `Header.Get`: the first value of the header, or the empty string. The names
the source passes are already in canonical form. -/
def Header.Get (h : Header) (key : GoString) : GoString :=
  match h key with
  | [] => []
  | v :: _ => v

/-- Go `Header.Set`: the header gets the single value `value`. -/
def Header.Set (h : Header) (key value : GoString) : Header :=
  fun k => if k = key then [value] else h k

/-- An `*http.Request`, by the parts the source and the request multiplexer read:
`Method`, `URL.Path` (the unescaped path), `URL.EscapedPath()` (the path as it came on
the request line), `RequestURI` and `Header`. -/
structure Request where
  Method : GoString
  Path : GoString
  EscapedPath : GoString
  RequestURI : GoString
  Header : Header

/-- A request for a path without percent-escapes and without a query string: the
unescaped path, the escaped path and the request URI are the same string. -/
def plainRequest (method path : GoString) (header : Header) : Request :=
  { Method := method, Path := path, EscapedPath := path, RequestURI := path,
    Header := header }

/-- The byte `/`. -/
def slash : UInt8 := 47

/-- The elements of a path: the byte strings between its slashes. -/
def splitSlash : GoString → List GoString
  | [] => [[]]
  | c :: cs =>
    if c = slash then [] :: splitSlash cs
    else
      match splitSlash cs with
      | [] => [[c]]
      | e :: es => (c :: e) :: es

/-- The elements `path.Clean` keeps of a rooted path, `kept` being those kept so far,
last first: an empty element and `.` are dropped, `..` drops the element kept before it
(and is dropped itself at the root). -/
def cleanElems (kept : List GoString) : List GoString → List GoString
  | [] => kept.reverse
  | e :: es =>
    if e = [] ∨ e = ascii "." then cleanElems kept es
    else if e = ascii ".." then cleanElems kept.tail es
    else cleanElems (e :: kept) es

/-- Go `path.Clean` on a rooted path, after its documented rules: the kept elements,
each after one slash, and `/` when none is kept. -/
def pathClean (p : GoString) : GoString :=
  match cleanElems [] (splitSlash p) with
  | [] => [slash]
  | e :: es => (e :: es).foldr (fun el acc => slash :: (el ++ acc)) []

/-- Function `cleanPath` of `net/http`: the canonical form of a request path. The
empty path becomes `/`, a path gets a leading slash, `path.Clean` is applied, and a
trailing slash is kept. -/
def cleanPath (p : GoString) : GoString :=
  if p = [] then [slash]
  else
    let p1 : GoString := if p.head? = some slash then p else slash :: p
    let np := pathClean p1
    if p1.getLast? = some slash ∧ np ≠ [slash] then np ++ [slash] else np

/-- The server side `http.ResponseWriter` of one request, after `net/http`:
`header` is the live map returned by `Header()`; once a final status is written
(`wroteHeader`), `status` and `sentHeader` are what goes on the wire and later changes
of `header` have no effect; `informational` are the 1xx statuses sent before it; `body`
is what `Write` has sent. Trailers, hijacking and the suppression of the body of a HEAD
response are outside this model. -/
structure ResponseWriter where
  header : Header
  wroteHeader : Bool
  status : Int
  sentHeader : Header
  informational : List Int
  body : List UInt8

/-- The response writer a handler chain receives for a new request. -/
def ResponseWriter.fresh : ResponseWriter :=
  { header := Header.empty, wroteHeader := false, status := 0,
    sentHeader := Header.empty, informational := [], body := [] }

/-- Statement `w.Header().Set(key, value)`. -/
def ResponseWriter.setHeader (w : ResponseWriter) (key value : GoString) : ResponseWriter :=
  { w with header := w.header.Set key value }

/-- Method `WriteHeader` of the server's response writer: a call after the header
was written is ignored; a code outside `100 ..= 999` panics (`none`); a 1xx code other
than 101 is sent as an informational response; any other code is the final status and
fixes the headers sent. -/
def ResponseWriter.WriteHeader (w : ResponseWriter) (code : Int) : Option ResponseWriter :=
  if w.wroteHeader then some w
  else if code < 100 ∨ code > 999 then none
  else if 100 ≤ code ∧ code ≤ 199 ∧ code ≠ 101 then
    some { w with informational := w.informational ++ [code] }
  else some { w with wroteHeader := true, status := code, sentHeader := w.header }

/-- Whether a response with this status may have a body (`bodyAllowedForStatus`). -/
def bodyAllowedForStatus (status : Int) : Bool :=
  if 100 ≤ status ∧ status ≤ 199 then false
  else if status = 204 then false
  else if status = 304 then false
  else true

/-- Method `Write` of the server's response writer: the first `Write` without a
preceding `WriteHeader` writes status 200; the bytes are sent when the status allows a
body. -/
def ResponseWriter.Write (w : ResponseWriter) (b : List UInt8) : ResponseWriter :=
  let w1 : ResponseWriter :=
    if w.wroteHeader then w
    else { w with wroteHeader := true, status := 200, sentHeader := w.header }
  if bodyAllowedForStatus w1.status then { w1 with body := w1.body ++ b } else w1

/-- What the server does when the handler has returned: a response whose header was
never written gets status 200. -/
def ResponseWriter.finish (w : ResponseWriter) : ResponseWriter :=
  if w.wroteHeader then w
  else { w with wroteHeader := true, status := 200, sentHeader := w.header }

/-- An argument of a `log.Printf` call. -/
inductive LogArg where
  | str (s : GoString)
  | int (n : Int)
  deriving DecidableEq, Repr

/-- One `log.Printf` call: its format string and its arguments. -/
structure LogEntry where
  format : String
  args : List LogArg
  deriving DecidableEq, Repr

/-- The state one request is served in: the response writer, the process log, and how
many times the x402 payment handler (the only way to the content service) has been
entered. -/
structure Exchange where
  w : ResponseWriter
  log : List LogEntry
  handlerCalls : Nat

/-- Statement `log.Printf(format, args...)`. -/
def Exchange.Printf (x : Exchange) (format : String) (args : List LogArg) : Exchange :=
  { x with log := x.log ++ [{ format := format, args := args }] }

/-- A reply `net/http` makes itself, without calling a handler registered by the
source: the multiplexer's redirect to the canonical path `target`, its Bad Request for
the request URI `*`, its Not Found for a path no pattern matches, and the server's own
answer to `OPTIONS *`. None of them passes through `addCORS`; their status line, headers
and body are the library's. -/
inductive ServerReply where
  | redirect (target : GoString)
  | badRequest
  | notFound
  | generalOptions
  deriving DecidableEq, Repr

/-- How serving ended: the handler returned (`done`) or panicked (`panicked`), each with
the state reached, or `net/http` replied itself (`library`) and the state is as it
was. -/
inductive Outcome where
  | done (x : Exchange)
  | panicked (x : Exchange)
  | library (x : Exchange) (reply : ServerReply)

/-- The state an outcome carries. -/
def Outcome.state : Outcome → Exchange
  | .done x => x
  | .panicked x => x
  | .library x _ => x

/-- One method call a handler makes on the `http.ResponseWriter` it was given: a change
of the map returned by `Header()`, `WriteHeader(code)` or `Write(b)`. -/
inductive WriterCall where
  | editHeader (f : Header → Header)
  | writeHeader (code : Int)
  | write (b : List UInt8)

/-- The x402 payment middleware around the gateway mux (`handler` in
`startHTTPGateway`), a library value: taken as the sequence of calls it makes on its
response writer for a request. -/
abbrev Handler := Request → List WriterCall

/-! ## `main.go` -/

/-- Function `min`: the minimum of two integers. -/
def min (a b : Int) : Int :=
  if a < b then a else b

/-- The type `loggingResponseWriter`: the embedded `http.ResponseWriter` and
`statusCode`. -/
structure loggingResponseWriter where
  ResponseWriter : ResponseWriter
  statusCode : Int

/-- Method `loggingResponseWriter.WriteHeader`: record the code, then forward it to the
embedded writer. A panic of the embedded writer (`Except.error`) leaves the code
recorded. -/
def loggingResponseWriter.WriteHeader (w : loggingResponseWriter) (statusCode : Int) :
    Except loggingResponseWriter loggingResponseWriter :=
  let w1 : loggingResponseWriter := { w with statusCode := statusCode }
  match w1.ResponseWriter.WriteHeader statusCode with
  | none => .error w1
  | some u => .ok { w1 with ResponseWriter := u }

/-- One call of the inner handler on the `loggingResponseWriter`: `Header()` and `Write`
are the promoted methods of the embedded writer, `WriteHeader` is the method above. -/
def loggingResponseWriter.call (w : loggingResponseWriter) :
    WriterCall → Except loggingResponseWriter loggingResponseWriter
  | .editHeader f =>
    .ok { w with ResponseWriter := { w.ResponseWriter with header := f w.ResponseWriter.header } }
  | .writeHeader code => w.WriteHeader code
  | .write b => .ok { w with ResponseWriter := w.ResponseWriter.Write b }

/-- The calls of the inner handler, in order, until one panics. -/
def loggingResponseWriter.calls (w : loggingResponseWriter) :
    List WriterCall → Except loggingResponseWriter loggingResponseWriter
  | [] => .ok w
  | c :: cs =>
    match w.call c with
    | .error w1 => .error w1
    | .ok w1 => w1.calls cs

/-- The closure `loggingHandler` of `startHTTPGateway`. -/
def loggingHandler (handler : Handler) (x : Exchange) (r : Request) : Outcome :=
  let x1 := x.Printf "[REQUEST] %s %s" [.str r.Method, .str r.Path]
  let paymentHeader := r.Header.Get (ascii "X-Payment")
  let logged : Except Exchange Exchange :=
    if paymentHeader ≠ [] then
      let x2 := x1.Printf "[PAYMENT] Received X-Payment header (length: %d bytes)"
        [.int (len paymentHeader)]
      match sliceTo paymentHeader (min 100 (len paymentHeader)) with
      | none => .error x2
      | some preview => .ok (x2.Printf "[PAYMENT] Payment data preview: %s..." [.str preview])
    else
      .ok (x1.Printf "[PAYMENT] No X-Payment header found" [])
  match logged with
  | .error x3 => .panicked x3
  | .ok x3 =>
    let wrappedWriter : loggingResponseWriter := { ResponseWriter := x3.w, statusCode := 200 }
    let x4 : Exchange := { x3 with handlerCalls := x3.handlerCalls + 1 }
    match wrappedWriter.calls (handler r) with
    | .error ww => .panicked { x4 with w := ww.ResponseWriter }
    | .ok ww =>
      .done ({ x4 with w := ww.ResponseWriter }.Printf "[RESPONSE] Status: %d" [.int ww.statusCode])

/-- Function `addCORS`, applied to the handler `next`. -/
def addCORS (next : Exchange → Request → Outcome) (x : Exchange) (r : Request) : Outcome :=
  let origin := r.Header.Get (ascii "Origin")
  let w1 : ResponseWriter :=
    if origin ≠ [] then x.w.setHeader (ascii "Access-Control-Allow-Origin") origin else x.w
  let w2 := w1.setHeader (ascii "Access-Control-Allow-Methods") (ascii "GET, POST, OPTIONS")
  let w3 := w2.setHeader (ascii "Access-Control-Allow-Headers") (ascii "Content-Type, X-Payment")
  let w4 := w3.setHeader (ascii "Access-Control-Expose-Headers") (ascii "X-Payment-Response")
  if r.Method = ascii "OPTIONS" then
    match w4.WriteHeader 200 with
    | none => .panicked { x with w := w4 }
    | some w5 => .done { x with w := w5 }
  else
    next { x with w := w4 } r

/-- The handler registered on `healthMux` for the pattern `/health`. -/
def healthHandler (x : Exchange) (_r : Request) : Outcome :=
  match x.w.WriteHeader 200 with
  | none => .panicked x
  | some w1 => .done { x with w := w1.Write (ascii "OK") }

/-- The handler `corsHandler` of `startHTTPGateway`: `addCORS(loggingHandler)`. -/
def corsHandler (handler : Handler) (x : Exchange) (r : Request) : Outcome :=
  addCORS (loggingHandler handler) x r

/-- The two registrations on `healthMux`: the pattern `/health` matches that exact
path and goes to the health handler; the pattern `/` matches every other rooted path and
goes to `corsHandler`; a path that is not rooted (the empty path of `CONNECT host:port`)
matches no pattern. -/
def healthMux.registered (handler : Handler) (x : Exchange) (r : Request) : Outcome :=
  if r.Path = ascii "/health" then healthHandler x r
  else if r.EscapedPath.head? = some slash then corsHandler handler x r
  else .library x .notFound

/-- The handler `healthMux`, an `http.ServeMux`, with the two registrations of the
source. The multiplexer answers the request URI `*` itself; it matches a CONNECT request
on its path as it is; for every other method it first cleans the escaped path, and a
request whose path is not in that canonical form is answered with a redirect to the
cleaned path and reaches no registered handler. -/
def healthMux (handler : Handler) (x : Exchange) (r : Request) : Outcome :=
  if r.RequestURI = ascii "*" then .library x .badRequest
  else if r.Method = ascii "CONNECT" then healthMux.registered handler x r
  else if cleanPath r.EscapedPath ≠ r.EscapedPath then
    .library x (.redirect (cleanPath r.EscapedPath))
  else healthMux.registered handler x r

/-- Serving one request on the public listener (`httpServer`, whose `Handler` is
`healthMux`): the server answers `OPTIONS *` itself; every other request goes to
`healthMux` on a new response writer, and the server completes the response when the
handler has returned. The process log so far is `log`. -/
def serveHTTP (handler : Handler) (log : List LogEntry) (r : Request) : Outcome :=
  if r.RequestURI = ascii "*" ∧ r.Method = ascii "OPTIONS" then
    .library { w := ResponseWriter.fresh, log := log, handlerCalls := 0 } .generalOptions
  else
    match healthMux handler { w := ResponseWriter.fresh, log := log, handlerCalls := 0 } r with
    | .done x => .done { x with w := x.w.finish }
    | .panicked x => .panicked x
    | .library x reply => .library x reply

/-! ## Vocabulary for the properties of `main.go` -/

/-- Whether a call of the inner handler is a `WriteHeader` call. -/
def WriterCall.isWriteHeader : WriterCall → Bool
  | .writeHeader _ => true
  | _ => false

/-- The status code a call of the inner handler passes, when it is a `WriteHeader`. -/
def WriterCall.code : WriterCall → Option Int
  | .writeHeader code => some code
  | _ => none

/-- Whether a call of the inner handler is a `WriteHeader` with an informational code:
a 1xx code other than 101, which does not fix the status of the response. -/
def WriterCall.isInformational : WriterCall → Bool
  | .writeHeader code => decide (100 ≤ code ∧ code ≤ 199 ∧ code ≠ 101)
  | _ => false

/-- Whether the calls of the inner handler, made on the `loggingResponseWriter` the
logging wrapper builds around `w`, all return: none of them panics. -/
def handlerReturns (w : ResponseWriter) (cs : List WriterCall) : Bool :=
  match ({ ResponseWriter := w, statusCode := 200 } : loggingResponseWriter).calls cs with
  | .ok _ => true
  | .error _ => false

/-- Whether a sequence of calls reaches a final `WriteHeader` before any `Write`, with
only header changes and informational `WriteHeader` calls before it and no `WriteHeader`
after it. -/
def endsWithFinal : List WriterCall → Bool
  | [] => false
  | .editHeader _ :: cs => endsWithFinal cs
  | .write _ :: _ => false
  | .writeHeader code :: cs =>
    if (WriterCall.writeHeader code).isInformational then endsWithFinal cs
    else cs.all (fun a => !a.isWriteHeader)

/-- Whether the inner handler sets the status of its response at most once: it never
calls `WriteHeader`, or its last `WriteHeader` call is the one that fixes the status
(any `WriteHeader` before it is informational, and no `Write` comes before it). -/
def setsStatusOnce (cs : List WriterCall) : Bool :=
  cs.all (fun a => !a.isWriteHeader) || endsWithFinal cs

/-- The entries the logging wrapper writes for a request before it calls the inner
handler. -/
def requestLog (r : Request) : List LogEntry :=
  { format := "[REQUEST] %s %s", args := [.str r.Method, .str r.Path] } ::
    (if r.Header.Get (ascii "X-Payment") ≠ [] then
      [{ format := "[PAYMENT] Received X-Payment header (length: %d bytes)",
         args := [.int (len (r.Header.Get (ascii "X-Payment")))] },
       { format := "[PAYMENT] Payment data preview: %s...",
         args := [.str ((r.Header.Get (ascii "X-Payment")).take 100)] }]
    else
      [{ format := "[PAYMENT] No X-Payment header found", args := [] }])

/-- The response writer after the four header statements of `addCORS`. -/
def corsWriter (w : ResponseWriter) (r : Request) : ResponseWriter :=
  (((if r.Header.Get (ascii "Origin") ≠ [] then
      w.setHeader (ascii "Access-Control-Allow-Origin") (r.Header.Get (ascii "Origin"))
    else w).setHeader (ascii "Access-Control-Allow-Methods") (ascii "GET, POST, OPTIONS")).setHeader
      (ascii "Access-Control-Allow-Headers") (ascii "Content-Type, X-Payment")).setHeader
    (ascii "Access-Control-Expose-Headers") (ascii "X-Payment-Response")

/-- The state a request of the public listener is served from, on process log `log`. -/
def Exchange.start (log : List LogEntry) : Exchange :=
  { w := ResponseWriter.fresh, log := log, handlerCalls := 0 }

/-- An inner handler that makes no call on its response writer. -/
def silentHandler : Handler :=
  fun _ => []

/-- An inner handler that answers in the usual order: headers, status, body. -/
def jsonHandler : Handler :=
  fun _ =>
    [.editHeader (fun h => h.Set (ascii "Content-Type") (ascii "application/json")),
     .writeHeader 402,
     .write (ascii "{}")]

/-- An inner handler that starts the body and calls `WriteHeader(500)` afterwards. -/
def lateStatusHandler : Handler :=
  fun _ => [.write (ascii "hi"), .writeHeader 500]

/-- The request `OPTIONS //health`, whose path is not in canonical form. -/
def optionsDoubleSlash : Request :=
  plainRequest (ascii "OPTIONS") (ascii "//health") Header.empty

/-- The request `OPTIONS /health`. -/
def optionsHealth : Request :=
  plainRequest (ascii "OPTIONS") (ascii "/health") Header.empty

/-- The request `OPTIONS /v1/rickroll`. -/
def optionsRickroll : Request :=
  plainRequest (ascii "OPTIONS") (ascii "/v1/rickroll") Header.empty

/-- The request `GET /health` with header `Origin: http://localhost:3000`. -/
def getHealthWithOrigin : Request :=
  plainRequest (ascii "GET") (ascii "/health")
    (Header.empty.Set (ascii "Origin") (ascii "http://localhost:3000"))

/-- The request `GET /v1/info` with header `Origin: http://localhost:3000`. -/
def getInfoWithOrigin : Request :=
  plainRequest (ascii "GET") (ascii "/v1/info")
    (Header.empty.Set (ascii "Origin") (ascii "http://localhost:3000"))

/-- The request `GET /v1/rickroll` with header `X-Payment: abc`. -/
def getRickrollShortProof : Request :=
  plainRequest (ascii "GET") (ascii "/v1/rickroll")
    (Header.empty.Set (ascii "X-Payment") (ascii "abc"))

/-- The request `GET /v1/rickroll` with an `X-Payment` header of 120 bytes `x`. -/
def getRickrollLongProof : Request :=
  plainRequest (ascii "GET") (ascii "/v1/rickroll")
    (Header.empty.Set (ascii "X-Payment") (List.replicate 120 (120 : UInt8)))

/-- The request `GET /v1/rickroll` without headers. -/
def getRickrollBare : Request :=
  plainRequest (ascii "GET") (ascii "/v1/rickroll") Header.empty

/-! ## Properties of `handler.go` -/

theorem wrapInt64_of_isInt64 {x : Int} (h : isInt64 x) : wrapInt64 x = x := by
  unfold isInt64 at h
  unfold wrapInt64
  norm_num at h ⊢
  omega

theorem isInt64_wrapInt64 (x : Int) : isInt64 (wrapInt64 x) := by
  unfold isInt64 wrapInt64
  norm_num
  omega

theorem wrapInt64_wrapInt64_add (x y : Int) :
    wrapInt64 (wrapInt64 x + y) = wrapInt64 (x + y) := by
  unfold wrapInt64
  norm_num
  omega

theorem GetRickRoll_count_of_paid (s : RickRollServer) (ctx : Context)
    (req : GetRickRollRequest) (p : PaymentContext)
    (hp : GetPaymentFromGRPCContext ctx = some p) :
    (GetRickRoll s ctx req).1.rickrollCount = wrapInt64 (s.rickrollCount + 1) := by
  simp [GetRickRoll, hp]

theorem GetRickRoll_state_of_unpaid (s : RickRollServer) (ctx : Context)
    (req : GetRickRollRequest) (hp : GetPaymentFromGRPCContext ctx = none) :
    (GetRickRoll s ctx req).1 = s := by
  simp [GetRickRoll, hp]

theorem serve_count (s : RickRollServer) (c : Call) :
    (serve s c).1.rickrollCount
      = if c.isPaid then wrapInt64 (s.rickrollCount + 1) else s.rickrollCount := by
  cases c with
  | rickroll ctx req =>
    cases hp : GetPaymentFromGRPCContext ctx with
    | none => simp [serve, Call.isPaid, hp, GetRickRoll_state_of_unpaid s ctx req hp]
    | some p => simp [serve, Call.isPaid, hp, GetRickRoll_count_of_paid s ctx req p hp]
  | info ctx req => simp [serve, Call.isPaid, GetInfo]

theorem paidCalls_cons (c : Call) (cs : List Call) :
    paidCalls (c :: cs) = (if c.isPaid then 1 else 0) + paidCalls cs := by
  unfold paidCalls
  by_cases h : c.isPaid = true
  · simp [List.filter_cons, h]; omega
  · simp [List.filter_cons, h]

theorem serve_isInt64 (s : RickRollServer) (c : Call) (h : isInt64 s.rickrollCount) :
    isInt64 (serve s c).1.rickrollCount := by
  rw [serve_count]
  split
  · exact isInt64_wrapInt64 _
  · exact h

theorem serveAll_count (cs : List Call) (s : RickRollServer) (h : isInt64 s.rickrollCount) :
    (serveAll s cs).1.rickrollCount = wrapInt64 (s.rickrollCount + paidCalls cs) := by
  induction cs generalizing s with
  | nil => simp [serveAll, paidCalls, wrapInt64_of_isInt64 h]
  | cons c cs ih =>
    simp only [serveAll]
    rw [ih _ (serve_isInt64 s c h), serve_count, paidCalls_cons]
    by_cases hc : c.isPaid = true
    · simp only [hc, if_true]
      rw [wrapInt64_wrapInt64_add]
      congr 1
      push_cast
      ring
    · simp only [hc, Bool.false_eq_true, if_false]
      simp

theorem paidCalls_replicate_paid (n : Nat) (c : Call) (h : c.isPaid = true) :
    paidCalls (List.replicate n c) = n := by
  induction n with
  | zero => simp [paidCalls]
  | succ n ih => rw [List.replicate_succ, paidCalls_cons, ih, h]; simp; omega

theorem reportedTotal_eq (s : RickRollServer) : reportedTotal s = some s.rickrollCount := by
  simp [reportedTotal, GetInfo]

theorem serveAll_info_only (cs : List Call) (s : RickRollServer)
    (h : ∀ c ∈ cs, c.isInfo = true) :
    (serveAll s cs).1 = s ∧
      ∀ rep ∈ (serveAll s cs).2, rep = Reply.info (GetInfo s unpaidContext {}).2.1 none := by
  induction cs with
  | nil => simp [serveAll]
  | cons c cs ih =>
    have hc := h c (List.mem_cons_self c cs)
    have ih2 := ih (fun d hd => h d (List.mem_cons_of_mem c hd))
    cases c with
    | rickroll ctx req => simp [Call.isInfo] at hc
    | info ctx req =>
      have hs : (serve s (Call.info ctx req)).1 = s := rfl
      simp only [serveAll, hs]
      refine ⟨ih2.1, ?_⟩
      intro rep hrep
      rcases List.mem_cons.mp hrep with h1 | h1
      · rw [h1]; rfl
      · exact ih2.2 rep h1

/-- Claim C1. A `GetRickRoll` call whose context carries a payment returns no error, and
its response has the fixed content fields and a receipt whose fields are the payment's:
transaction hash, amount, token symbol, payer address, and the Unix seconds of the
settlement time. -/
theorem GetRickRoll_paid_response (s : RickRollServer) (ctx : Context)
    (req : GetRickRollRequest) (payment : PaymentContext)
    (hp : GetPaymentFromGRPCContext ctx = some payment) :
    (GetRickRoll s ctx req).2.2 = none ∧
    (GetRickRoll s ctx req).2.1 = some
      { Lyrics := ascii "Premium content goes here - add your own text"
        VideoUrl := ascii "https://www.youtube.com/embed/dQw4w9WgXcQ"
        Gif := []
        Receipt := some
          { TransactionHash := payment.TransactionHash
            AmountPaid := payment.Amount
            TokenSymbol := payment.TokenSymbol
            PayerAddress := payment.PayerAddress
            SettledAt := payment.SettledAt.Unix } } := by
  simp [GetRickRoll, hp]

theorem GetRickRoll_paid_response_witness :
    (GetRickRoll { rickrollCount := 41 } paidContext {}).2.2 = none ∧
    (GetRickRoll { rickrollCount := 41 } paidContext {}).2.1 = some
      { Lyrics := ascii "Premium content goes here - add your own text"
        VideoUrl := ascii "https://www.youtube.com/embed/dQw4w9WgXcQ"
        Gif := []
        Receipt := some
          { TransactionHash := samplePayment.TransactionHash
            AmountPaid := samplePayment.Amount
            TokenSymbol := samplePayment.TokenSymbol
            PayerAddress := samplePayment.PayerAddress
            SettledAt := samplePayment.SettledAt.Unix } } :=
  GetRickRoll_paid_response { rickrollCount := 41 } paidContext {} samplePayment rfl

/-- Claim C2, as stated, fails at the largest `int64`: a paid call on a server whose
counter is `2^63 - 1` leaves the counter at `-2^63`, not at the counter before plus 1. -/
theorem GetRickRoll_count_wraps_at_max :
    isInt64 ((2 : Int) ^ 63 - 1) ∧
    (GetRickRoll { rickrollCount := (2 : Int) ^ 63 - 1 } paidContext {}).1.rickrollCount
      = -(2 : Int) ^ 63 ∧
    (GetRickRoll { rickrollCount := (2 : Int) ^ 63 - 1 } paidContext {}).1.rickrollCount
      ≠ ((2 : Int) ^ 63 - 1) + 1 := by
  refine ⟨⟨by decide, by decide⟩, ?_, ?_⟩ <;>
    simp [GetRickRoll, GetPaymentFromGRPCContext, paidContext, wrapInt64]

/-- Claim C2, amended. A `GetRickRoll` call whose context carries a payment leaves the
counter at the counter before plus 1 reduced to `int64`; that is the counter before plus
1 whenever the counter before is below `2^63 - 1`, and a second call with the same
context adds 1 again. -/
theorem GetRickRoll_increments_count (s : RickRollServer) (ctx : Context)
    (req : GetRickRollRequest) (payment : PaymentContext)
    (hp : GetPaymentFromGRPCContext ctx = some payment)
    (hs : isInt64 s.rickrollCount) :
    (GetRickRoll s ctx req).1.rickrollCount = wrapInt64 (s.rickrollCount + 1) ∧
    isInt64 (GetRickRoll s ctx req).1.rickrollCount ∧
    (s.rickrollCount < (2 : Int) ^ 63 - 1 →
      (GetRickRoll s ctx req).1.rickrollCount = s.rickrollCount + 1) ∧
    (s.rickrollCount < (2 : Int) ^ 63 - 2 →
      (GetRickRoll (GetRickRoll s ctx req).1 ctx req).1.rickrollCount
        = s.rickrollCount + 2) := by
  have h1 := GetRickRoll_count_of_paid s ctx req payment hp
  have h2 := GetRickRoll_count_of_paid (GetRickRoll s ctx req).1 ctx req payment hp
  refine ⟨h1, ?_, ?_, ?_⟩
  · rw [h1]; exact isInt64_wrapInt64 _
  · intro hlt
    rw [h1]
    apply wrapInt64_of_isInt64
    unfold isInt64 at hs ⊢
    norm_num at hs hlt ⊢
    omega
  · intro hlt
    rw [h2, h1, wrapInt64_wrapInt64_add]
    have : isInt64 (s.rickrollCount + 1 + 1) := by
      unfold isInt64 at hs ⊢
      norm_num at hs hlt ⊢
      omega
    rw [wrapInt64_of_isInt64 this]
    ring

theorem GetRickRoll_increments_count_witness :
    (GetRickRoll { rickrollCount := 41 } paidContext {}).1.rickrollCount = 42 ∧
    (GetRickRoll (GetRickRoll { rickrollCount := 41 } paidContext {}).1
      paidContext {}).1.rickrollCount = 43 :=
  have h := GetRickRoll_increments_count { rickrollCount := 41 } paidContext {}
    samplePayment rfl ⟨by decide, by decide⟩
  ⟨h.2.2.1 (by decide), h.2.2.2 (by decide)⟩

/-- Claim C3. A `GetRickRoll` call whose context carries no payment returns an error and
no response and leaves the server state as it was; and `GetRickRoll` returns an error
exactly when the context carries no payment. -/
theorem GetRickRoll_unpaid_fails (s : RickRollServer) (ctx : Context)
    (req : GetRickRollRequest) :
    (GetPaymentFromGRPCContext ctx = none →
      GetRickRoll s ctx req
        = (s, none, some { msg := ascii "payment required but not found in context" })) ∧
    ((GetRickRoll s ctx req).2.2 ≠ none ↔ GetPaymentFromGRPCContext ctx = none) := by
  cases hp : GetPaymentFromGRPCContext ctx with
  | none => simp [GetRickRoll, hp]
  | some p => simp [GetRickRoll, hp]

theorem GetRickRoll_unpaid_fails_witness :
    GetRickRoll { rickrollCount := 7 } unpaidContext {}
      = ({ rickrollCount := 7 }, none,
          some { msg := ascii "payment required but not found in context" }) :=
  (GetRickRoll_unpaid_fails { rickrollCount := 7 } unpaidContext {}).1 rfl

/-- Claim C4. `GetInfo` returns no error, the server state it was called on, and the
fixed description, price `0.01` and one accepted token (USDC on arbitrum-one) together
with the current counter; any sequence of `GetInfo` calls alone leaves the state as it
was and every one of them returns that same response. -/
theorem GetInfo_pure_read (s : RickRollServer) (ctx : Context) (req : GetInfoRequest) :
    GetInfo s ctx req
      = (s,
         some
          { Description := ascii "Pay-per-use service powered by x402 protocol"
            PriceUsd := ascii "0.01"
            TotalRickrolls := s.rickrollCount
            AcceptedTokens :=
              [{ Symbol := ascii "USDC"
                 Network := ascii "arbitrum-one"
                 ContractAddress := ascii "0xaf88d065e77c8cC2239327C5EDb3A432268e5831" }] },
         none) ∧
    ∀ cs : List Call, (∀ c ∈ cs, c.isInfo = true) →
      (serveAll s cs).1 = s ∧
      ∀ rep ∈ (serveAll s cs).2, rep = Reply.info (GetInfo s ctx req).2.1 none :=
  ⟨rfl, fun cs h => serveAll_info_only cs s h⟩

theorem GetInfo_pure_read_witness :
    (serveAll { rickrollCount := 7 }
        [Call.info unpaidContext {}, Call.info paidContext {}, Call.info unpaidContext {}]).1
      = { rickrollCount := 7 } :=
  ((GetInfo_pure_read { rickrollCount := 7 } unpaidContext {}).2
    [Call.info unpaidContext {}, Call.info paidContext {}, Call.info unpaidContext {}]
    (by decide)).1

/-- Claim C5, as stated, fails for a sequence of `2^63` paid calls on a fresh server:
`GetInfo` then reports `-2^63`, while `2^63` calls carried a payment. -/
theorem reportedTotal_wraps_after_many_paid_calls :
    paidCalls (List.replicate (2 ^ 63) (Call.rickroll paidContext {})) = 2 ^ 63 ∧
    reportedTotal
        (serveAll NewRickRollServer (List.replicate (2 ^ 63) (Call.rickroll paidContext {}))).1
      = some (-(2 : Int) ^ 63) ∧
    reportedTotal
        (serveAll NewRickRollServer (List.replicate (2 ^ 63) (Call.rickroll paidContext {}))).1
      ≠ some ((paidCalls (List.replicate (2 ^ 63) (Call.rickroll paidContext {})) : Nat) : Int) := by
  have hpaid : paidCalls (List.replicate (2 ^ 63) (Call.rickroll paidContext {})) = 2 ^ 63 :=
    paidCalls_replicate_paid _ _ rfl
  have h0 : isInt64 NewRickRollServer.rickrollCount := ⟨by decide, by decide⟩
  have hval : reportedTotal
      (serveAll NewRickRollServer (List.replicate (2 ^ 63) (Call.rickroll paidContext {}))).1
      = some (-(2 : Int) ^ 63) := by
    rw [reportedTotal_eq, serveAll_count _ _ h0, hpaid]
    simp [NewRickRollServer, wrapInt64]
  refine ⟨hpaid, hval, ?_⟩
  rw [hval, hpaid]
  norm_num

/-- Claim C5, amended. On a fresh server, after any finite sequence of `GetRickRoll` and
`GetInfo` calls, `GetInfo` reports the number of `GetRickRoll` calls that carried a
payment reduced to `int64`, which is that number itself as long as it is below `2^63`;
calls without a payment do not enter the count. -/
theorem reportedTotal_counts_paid_calls (cs : List Call) :
    reportedTotal (serveAll NewRickRollServer cs).1 = some (wrapInt64 (paidCalls cs)) ∧
    (paidCalls cs < 2 ^ 63 →
      reportedTotal (serveAll NewRickRollServer cs).1 = some ((paidCalls cs : Nat) : Int)) := by
  have h0 : isInt64 NewRickRollServer.rickrollCount := ⟨by decide, by decide⟩
  have h1 : reportedTotal (serveAll NewRickRollServer cs).1
      = some (wrapInt64 (paidCalls cs)) := by
    rw [reportedTotal_eq, serveAll_count _ _ h0]
    simp [NewRickRollServer]
  refine ⟨h1, ?_⟩
  intro hlt
  have hub : ((paidCalls cs : Nat) : Int) < (2 : Int) ^ 63 := by exact_mod_cast hlt
  have hlb : (0 : Int) ≤ ((paidCalls cs : Nat) : Int) := Int.natCast_nonneg _
  have hI : isInt64 ((paidCalls cs : Nat) : Int) := by
    unfold isInt64
    refine ⟨?_, hub⟩
    have : -(2 : Int) ^ 63 ≤ 0 := by norm_num
    exact le_trans this hlb
  rw [h1, wrapInt64_of_isInt64 hI]

theorem reportedTotal_counts_paid_calls_witness :
    reportedTotal (serveAll NewRickRollServer []).1 = some 0 ∧
    reportedTotal (serveAll NewRickRollServer [Call.rickroll paidContext {}]).1 = some 1 ∧
    reportedTotal
        (serveAll NewRickRollServer
          [Call.rickroll unpaidContext {}, Call.info unpaidContext {},
           Call.rickroll paidContext {}, Call.rickroll unpaidContext {}]).1 = some 1 :=
  ⟨(reportedTotal_counts_paid_calls []).2 (by decide),
   (reportedTotal_counts_paid_calls [Call.rickroll paidContext {}]).2 (by decide),
   (reportedTotal_counts_paid_calls
      [Call.rickroll unpaidContext {}, Call.info unpaidContext {},
       Call.rickroll paidContext {}, Call.rickroll unpaidContext {}]).2 (by decide)⟩

/-! ## Properties of `main.go` -/

theorem take_min_len (h : GoString) : h.take (min 100 (len h)).toNat = h.take 100 := by
  unfold min len
  by_cases hlt : (100 : Int) < (h.length : Int)
  · simp [hlt]
  · simp only [hlt, if_false, Int.toNat_ofNat]
    have hle : h.length ≤ 100 := by omega
    rw [List.take_of_length_le (le_refl _), List.take_of_length_le hle]

theorem sliceTo_min_len (h : GoString) :
    sliceTo h (min 100 (len h)) = some (h.take (min 100 (len h)).toNat) := by
  have hr : 0 ≤ min 100 (len h) ∧ min 100 (len h) ≤ len h := by
    unfold min len
    by_cases hlt : (100 : Int) < (h.length : Int)
    · simp only [hlt, if_true]; omega
    · simp only [hlt, if_false]; omega
  simp [sliceTo, hr]

theorem loggingHandler_eq (handler : Handler) (x : Exchange) (r : Request) :
    loggingHandler handler x r =
      match ({ ResponseWriter := x.w, statusCode := 200 } : loggingResponseWriter).calls
          (handler r) with
      | .error ww =>
        .panicked { w := ww.ResponseWriter, log := x.log ++ requestLog r,
                    handlerCalls := x.handlerCalls + 1 }
      | .ok ww =>
        .done { w := ww.ResponseWriter,
                log := (x.log ++ requestLog r) ++
                  [{ format := "[RESPONSE] Status: %d", args := [.int ww.statusCode] }],
                handlerCalls := x.handlerCalls + 1 } := by
  unfold loggingHandler requestLog
  by_cases hh : r.Header.Get (ascii "X-Payment") = []
  · simp [hh, Exchange.Printf]
  · simp [hh, Exchange.Printf, sliceTo_min_len, take_min_len]

theorem calls_cons_ok (a : WriterCall) (cs : List WriterCall)
    (w ww : loggingResponseWriter) (h : w.calls (a :: cs) = .ok ww) :
    ∃ w1, w.call a = .ok w1 ∧ w1.calls cs = .ok ww := by
  simp only [loggingResponseWriter.calls] at h
  cases h1 : w.call a with
  | error e => rw [h1] at h; simp at h
  | ok w1 => rw [h1] at h; exact ⟨w1, rfl, h⟩

theorem bodyAllowedForStatus_200 : bodyAllowedForStatus 200 = true := by
  decide

theorem Write_header (w : ResponseWriter) (b : List UInt8) :
    (w.Write b).header = w.header := by
  by_cases hw : w.wroteHeader = true <;>
    by_cases hb : bodyAllowedForStatus w.status = true <;>
    simp [ResponseWriter.Write, hw, hb, bodyAllowedForStatus_200]

theorem Write_sentHeader (w : ResponseWriter) (b : List UInt8) :
    (w.Write b).sentHeader = if w.wroteHeader then w.sentHeader else w.header := by
  by_cases hw : w.wroteHeader = true <;>
    by_cases hb : bodyAllowedForStatus w.status = true <;>
    simp [ResponseWriter.Write, hw, hb, bodyAllowedForStatus_200]

theorem call_header_inv (k : GoString) (vs : List GoString)
    (w w1 : loggingResponseWriter) (a : WriterCall) (h : w.call a = .ok w1)
    (hk : ∀ f, a = .editHeader f → ∀ hd : Header, f hd k = hd k)
    (hi : w.ResponseWriter.header k = vs ∧
      (w.ResponseWriter.wroteHeader = true → w.ResponseWriter.sentHeader k = vs)) :
    w1.ResponseWriter.header k = vs ∧
      (w1.ResponseWriter.wroteHeader = true → w1.ResponseWriter.sentHeader k = vs) := by
  cases a with
  | editHeader f =>
    simp [loggingResponseWriter.call] at h
    rw [← h]
    exact ⟨by simp [hk f rfl, hi.1], hi.2⟩
  | write b =>
    simp [loggingResponseWriter.call] at h
    rw [← h]
    simp only [Write_header, Write_sentHeader]
    by_cases hw : w.ResponseWriter.wroteHeader = true
    · simp only [hw, if_true]; exact ⟨hi.1, fun _ => hi.2 hw⟩
    · simp only [hw]; exact ⟨hi.1, fun _ => hi.1⟩
  | writeHeader c =>
    simp only [loggingResponseWriter.call, loggingResponseWriter.WriteHeader] at h
    split at h
    · simp at h
    · rename_i u hu
      simp at h
      rw [← h]
      simp only [ResponseWriter.WriteHeader] at hu
      split at hu
      · simp at hu; rw [← hu]; exact hi
      · split at hu
        · simp at hu
        · split at hu
          · simp at hu; rw [← hu]; exact hi
          · simp at hu; rw [← hu]; exact ⟨hi.1, fun _ => hi.1⟩

theorem calls_header_inv (k : GoString) (vs : List GoString) (cs : List WriterCall)
    (w ww : loggingResponseWriter) (h : w.calls cs = .ok ww)
    (hk : ∀ f, WriterCall.editHeader f ∈ cs → ∀ hd : Header, f hd k = hd k)
    (hi : w.ResponseWriter.header k = vs ∧
      (w.ResponseWriter.wroteHeader = true → w.ResponseWriter.sentHeader k = vs)) :
    ww.ResponseWriter.header k = vs ∧
      (ww.ResponseWriter.wroteHeader = true → ww.ResponseWriter.sentHeader k = vs) := by
  induction cs generalizing w with
  | nil => simp [loggingResponseWriter.calls] at h; rw [← h]; exact hi
  | cons a cs ih =>
    obtain ⟨w1, h1, h2⟩ := calls_cons_ok a cs w ww h
    exact ih w1 h2 (fun f hf => hk f (List.mem_cons_of_mem _ hf))
      (call_header_inv k vs w w1 a h1
        (fun f hf => hk f (by rw [hf]; exact List.mem_cons_self _ _)) hi)

theorem finish_sentHeader (k : GoString) (vs : List GoString) (w : ResponseWriter)
    (hi : w.header k = vs ∧ (w.wroteHeader = true → w.sentHeader k = vs)) :
    w.finish.sentHeader k = vs := by
  by_cases hw : w.wroteHeader = true
  · simp [ResponseWriter.finish, hw, hi.2 hw]
  · simp [ResponseWriter.finish, hw, hi.1]

theorem addCORS_eq (next : Exchange → Request → Outcome) (x : Exchange) (r : Request) :
    addCORS next x r =
      if r.Method = ascii "OPTIONS" then
        match (corsWriter x.w r).WriteHeader 200 with
        | none => .panicked { x with w := corsWriter x.w r }
        | some w5 => .done { x with w := w5 }
      else next { x with w := corsWriter x.w r } r := by
  rfl

theorem corsWriter_wroteHeader (w : ResponseWriter) (r : Request) :
    (corsWriter w r).wroteHeader = w.wroteHeader := by
  unfold corsWriter
  split <;> rfl

theorem corsWriter_allow_origin (w : ResponseWriter) (r : Request) :
    (corsWriter w r).header (ascii "Access-Control-Allow-Origin") =
      if r.Header.Get (ascii "Origin") ≠ [] then [r.Header.Get (ascii "Origin")]
      else w.header (ascii "Access-Control-Allow-Origin") := by
  have k1 : ascii "Access-Control-Allow-Origin" ≠ ascii "Access-Control-Allow-Methods" := by
    decide
  have k2 : ascii "Access-Control-Allow-Origin" ≠ ascii "Access-Control-Allow-Headers" := by
    decide
  have k3 : ascii "Access-Control-Allow-Origin" ≠ ascii "Access-Control-Expose-Headers" := by
    decide
  unfold corsWriter
  by_cases ho : r.Header.Get (ascii "Origin") = []
  · simp [ho, ResponseWriter.setHeader, Header.Set, k1, k2, k3]
  · simp [ho, ResponseWriter.setHeader, Header.Set, k1, k2, k3]

theorem loggingHandler_log (handler : Handler) (x : Exchange) (r : Request) :
    ∃ rest, (loggingHandler handler x r).state.log = x.log ++ requestLog r ++ rest ∧
      ∀ e ∈ rest, e.format = "[RESPONSE] Status: %d" := by
  rw [loggingHandler_eq]
  cases ({ ResponseWriter := x.w, statusCode := 200 } : loggingResponseWriter).calls
      (handler r) with
  | error ww => exact ⟨[], by simp [Outcome.state], by simp⟩
  | ok ww =>
    exact ⟨[{ format := "[RESPONSE] Status: %d", args := [.int ww.statusCode] }],
      by simp [Outcome.state], by simp⟩

theorem take_100_eq_iff (h : GoString) : h.take 100 = h ↔ h.length ≤ 100 := by
  constructor
  · intro he
    have hl : (h.take 100).length = h.length := by rw [he]
    rw [List.length_take] at hl
    omega
  · intro hle
    exact List.take_of_length_le hle

theorem pathClean_rooted (p : GoString) : ∃ t, pathClean p = slash :: t := by
  unfold pathClean
  split
  · exact ⟨[], rfl⟩
  · exact ⟨_, rfl⟩

theorem cleanPath_rooted (p : GoString) : (cleanPath p).head? = some slash := by
  unfold cleanPath
  by_cases hp : p = []
  · simp [hp]
  · simp only [hp, if_false]
    obtain ⟨t, ht⟩ := pathClean_rooted (if p.head? = some slash then p else slash :: p)
    rw [ht]
    split
    · split <;> rfl
    · split <;> rfl

theorem healthMux_of_canonical (handler : Handler) (x : Exchange) (r : Request)
    (huri : r.RequestURI ≠ ascii "*") (hclean : cleanPath r.EscapedPath = r.EscapedPath)
    (hp : r.Path ≠ ascii "/health") :
    healthMux handler x r = corsHandler handler x r := by
  have hroot : r.EscapedPath.head? = some slash := by
    rw [← hclean]; exact cleanPath_rooted _
  by_cases hc : r.Method = ascii "CONNECT"
  · simp [healthMux, healthMux.registered, huri, hc, hp, hroot]
  · simp [healthMux, healthMux.registered, huri, hc, hp, hroot, hclean]

theorem serveHTTP_of_not_star (handler : Handler) (log : List LogEntry) (r : Request)
    (huri : r.RequestURI ≠ ascii "*") :
    serveHTTP handler log r =
      match healthMux handler { w := ResponseWriter.fresh, log := log, handlerCalls := 0 } r with
      | .done x => .done { x with w := x.w.finish }
      | .panicked x => .panicked x
      | .library x reply => .library x reply := by
  simp [serveHTTP, huri]

theorem handlerReturns_ok (w : ResponseWriter) (cs : List WriterCall)
    (h : handlerReturns w cs = true) :
    ∃ ww, ({ ResponseWriter := w, statusCode := 200 } : loggingResponseWriter).calls cs
      = .ok ww := by
  unfold handlerReturns at h
  split at h
  · rename_i ww hww; exact ⟨ww, hww⟩
  · simp at h

/-- Claim C6, as stated, fails on the path `/health`: an OPTIONS request to it is answered
by the health handler, with status 200, the body `OK` and none of the three CORS headers. -/
theorem options_health_bypasses_cors :
    (serveHTTP silentHandler [] optionsHealth).state.w.status = 200 ∧
    (serveHTTP silentHandler [] optionsHealth).state.w.body = ascii "OK" ∧
    (serveHTTP silentHandler [] optionsHealth).state.w.body ≠ [] ∧
    (serveHTTP silentHandler [] optionsHealth).state.w.sentHeader
      (ascii "Access-Control-Allow-Methods") = [] ∧
    (serveHTTP silentHandler [] optionsHealth).state.w.sentHeader
      (ascii "Access-Control-Allow-Headers") = [] ∧
    (serveHTTP silentHandler [] optionsHealth).state.w.sentHeader
      (ascii "Access-Control-Expose-Headers") = [] := by
  decide

/-- Claim C6, amended. An OPTIONS request, other than `OPTIONS *`, whose path is in
canonical form and is not `/health` is answered with status 200, an empty body and the
three CORS headers `Access-Control-Allow-Methods`, `Access-Control-Allow-Headers` and
`Access-Control-Expose-Headers`, and neither the logging wrapper nor the payment handler
behind it is entered: the log is as it was. An OPTIONS request whose path is not in
canonical form is answered by the multiplexer's redirect to the cleaned path, and
`addCORS` is not reached. -/
theorem options_preflight (handler : Handler) (log : List LogEntry) (r : Request)
    (hm : r.Method = ascii "OPTIONS") (huri : r.RequestURI ≠ ascii "*") :
    (cleanPath r.EscapedPath = r.EscapedPath → r.Path ≠ ascii "/health" →
      ∃ x, serveHTTP handler log r = .done x ∧
        x.w.wroteHeader = true ∧
        x.w.status = 200 ∧
        x.w.body = [] ∧
        x.w.sentHeader (ascii "Access-Control-Allow-Methods")
          = [ascii "GET, POST, OPTIONS"] ∧
        x.w.sentHeader (ascii "Access-Control-Allow-Headers")
          = [ascii "Content-Type, X-Payment"] ∧
        x.w.sentHeader (ascii "Access-Control-Expose-Headers")
          = [ascii "X-Payment-Response"] ∧
        x.log = log ∧
        x.handlerCalls = 0) ∧
    (cleanPath r.EscapedPath ≠ r.EscapedPath →
      serveHTTP handler log r =
        .library { w := ResponseWriter.fresh, log := log, handlerCalls := 0 }
          (.redirect (cleanPath r.EscapedPath))) := by
  have k1 : ascii "Access-Control-Allow-Methods" ≠ ascii "Access-Control-Allow-Headers" := by
    decide
  have k2 : ascii "Access-Control-Allow-Methods" ≠ ascii "Access-Control-Expose-Headers" := by
    decide
  have k3 : ascii "Access-Control-Allow-Headers" ≠ ascii "Access-Control-Expose-Headers" := by
    decide
  have hconn : ascii "OPTIONS" ≠ ascii "CONNECT" := by decide
  constructor
  · intro hclean hp
    rw [serveHTTP_of_not_star handler log r huri, healthMux_of_canonical handler _ r huri hclean hp]
    by_cases ho : r.Header.Get (ascii "Origin") = []
    · simp [corsHandler, addCORS, hm, ho, ResponseWriter.WriteHeader,
        ResponseWriter.setHeader, ResponseWriter.fresh, ResponseWriter.finish, Header.Set,
        k1, k2, k3]
    · simp [corsHandler, addCORS, hm, ho, ResponseWriter.WriteHeader,
        ResponseWriter.setHeader, ResponseWriter.fresh, ResponseWriter.finish, Header.Set,
        k1, k2, k3]
  · intro hnc
    rw [serveHTTP_of_not_star handler log r huri]
    simp [healthMux, huri, hm, hconn, hnc]

theorem options_preflight_witness :
    (∃ x, serveHTTP jsonHandler [] optionsRickroll = .done x ∧
      x.w.wroteHeader = true ∧
      x.w.status = 200 ∧
      x.w.body = [] ∧
      x.w.sentHeader (ascii "Access-Control-Allow-Methods") = [ascii "GET, POST, OPTIONS"] ∧
      x.w.sentHeader (ascii "Access-Control-Allow-Headers")
        = [ascii "Content-Type, X-Payment"] ∧
      x.w.sentHeader (ascii "Access-Control-Expose-Headers") = [ascii "X-Payment-Response"] ∧
      x.log = [] ∧
      x.handlerCalls = 0) ∧
    serveHTTP jsonHandler [] optionsDoubleSlash =
      .library { w := ResponseWriter.fresh, log := [], handlerCalls := 0 }
        (.redirect (ascii "/health")) :=
  ⟨(options_preflight jsonHandler [] optionsRickroll rfl (by decide)).1
      (by decide) (by decide),
   (options_preflight jsonHandler [] optionsDoubleSlash rfl (by decide)).2 (by decide)⟩

/-- Claim C7, as stated, fails on the path `/health`: a GET request to it that carries an
`Origin` header is answered by the health handler, and the response has no
`Access-Control-Allow-Origin` header. -/
theorem get_health_has_no_allow_origin :
    getHealthWithOrigin.Method = ascii "GET" ∧
    getHealthWithOrigin.Header.Get (ascii "Origin") = ascii "http://localhost:3000" ∧
    (serveHTTP silentHandler [] getHealthWithOrigin).state.w.wroteHeader = true ∧
    (serveHTTP silentHandler [] getHealthWithOrigin).state.w.sentHeader
      (ascii "Access-Control-Allow-Origin") = [] ∧
    (serveHTTP silentHandler [] getHealthWithOrigin).state.w.sentHeader
      (ascii "Access-Control-Allow-Origin") ≠ [ascii "http://localhost:3000"] := by
  decide

/-- Claim C7, amended. For a request whose path is in canonical form and is not
`/health`: when it is not a preflight, `addCORS` hands it on to the logging wrapper with
`Access-Control-Allow-Origin` set to exactly the request's non-empty `Origin`, and
untouched when the request has no `Origin`; and when the inner handler, if it is reached,
does not panic and does not change that header, the response sent has the header with
exactly that origin, and does not have it when the request has no `Origin`. -/
theorem cors_allow_origin (handler : Handler) (log : List LogEntry) (r : Request)
    (huri : r.RequestURI ≠ ascii "*") (hclean : cleanPath r.EscapedPath = r.EscapedPath)
    (hp : r.Path ≠ ascii "/health") :
    (∀ x : Exchange, r.Method ≠ ascii "OPTIONS" →
      ∃ w, healthMux handler x r = loggingHandler handler { x with w := w } r ∧
        (r.Header.Get (ascii "Origin") ≠ [] →
          w.header (ascii "Access-Control-Allow-Origin") = [r.Header.Get (ascii "Origin")]) ∧
        (r.Header.Get (ascii "Origin") = [] →
          w.header (ascii "Access-Control-Allow-Origin")
            = x.w.header (ascii "Access-Control-Allow-Origin"))) ∧
    ((r.Method ≠ ascii "OPTIONS" →
        handlerReturns (corsWriter ResponseWriter.fresh r) (handler r) = true ∧
        ∀ f, WriterCall.editHeader f ∈ handler r →
          ∀ hd : Header, f hd (ascii "Access-Control-Allow-Origin")
            = hd (ascii "Access-Control-Allow-Origin")) →
      ∃ x, serveHTTP handler log r = .done x ∧
        (r.Header.Get (ascii "Origin") ≠ [] →
          x.w.sentHeader (ascii "Access-Control-Allow-Origin")
            = [r.Header.Get (ascii "Origin")]) ∧
        (r.Header.Get (ascii "Origin") = [] →
          x.w.sentHeader (ascii "Access-Control-Allow-Origin") = [])) := by
  constructor
  · intro x hm
    refine ⟨corsWriter x.w r, ?_, ?_, ?_⟩
    · rw [healthMux_of_canonical handler x r huri hclean hp]
      simp [corsHandler, addCORS_eq, hm]
    · intro ho; rw [corsWriter_allow_origin]; simp [ho]
    · intro ho; rw [corsWriter_allow_origin]; simp [ho]
  · intro hrun
    have hcw : (corsWriter ResponseWriter.fresh r).header (ascii "Access-Control-Allow-Origin")
        = if r.Header.Get (ascii "Origin") ≠ [] then [r.Header.Get (ascii "Origin")]
          else [] := by
      rw [corsWriter_allow_origin]; rfl
    have hnw : (corsWriter ResponseWriter.fresh r).wroteHeader = false := by
      rw [corsWriter_wroteHeader]; rfl
    have hsent : ∃ x, serveHTTP handler log r = .done x ∧
        x.w.sentHeader (ascii "Access-Control-Allow-Origin")
          = (corsWriter ResponseWriter.fresh r).header (ascii "Access-Control-Allow-Origin") := by
      rw [serveHTTP_of_not_star handler log r huri,
        healthMux_of_canonical handler _ r huri hclean hp]
      by_cases hm : r.Method = ascii "OPTIONS"
      · simp [corsHandler, addCORS_eq, hm, ResponseWriter.WriteHeader, hnw,
          ResponseWriter.finish]
      · obtain ⟨hret, hk⟩ := hrun hm
        obtain ⟨ww, hww⟩ := handlerReturns_ok _ _ hret
        have hinv := calls_header_inv (ascii "Access-Control-Allow-Origin") _ (handler r)
          _ ww hww hk ⟨rfl, fun h => by simp [hnw] at h⟩
        refine ⟨{ w := ww.ResponseWriter.finish,
                  log := (log ++ requestLog r) ++
                    [{ format := "[RESPONSE] Status: %d", args := [.int ww.statusCode] }],
                  handlerCalls := 1 }, ?_, finish_sentHeader _ _ ww.ResponseWriter hinv⟩
        simp [corsHandler, addCORS_eq, hm, loggingHandler_eq, hww]
    obtain ⟨x, hx, hs⟩ := hsent
    refine ⟨x, hx, ?_, ?_⟩
    · intro ho; rw [hs, hcw]; simp [ho]
    · intro ho; rw [hs, hcw]; simp [ho]

theorem cors_allow_origin_witness :
    ∃ x, serveHTTP jsonHandler [] getInfoWithOrigin = .done x ∧
      x.w.sentHeader (ascii "Access-Control-Allow-Origin")
        = [ascii "http://localhost:3000"] := by
  obtain ⟨x, hx, h1, _⟩ :=
    (cors_allow_origin jsonHandler [] getInfoWithOrigin (by decide) (by decide) (by decide)).2
      (fun _ => ⟨by decide, by
        intro f hf hd
        simp [jsonHandler] at hf
        subst hf
        have k : ascii "Access-Control-Allow-Origin" ≠ ascii "Content-Type" := by decide
        simp [Header.Set, k]⟩)
  exact ⟨x, hx, h1 (by decide)⟩

/-- Claim C8. For a non-empty `X-Payment` value `h` the slice `h[:min(100, len(h))]` is
in range, is a prefix of `h` and has at most 100 bytes (the first 100 bytes of a longer
header), and it is the preview the logging wrapper writes, after the request line and
the length line; for an empty or absent header the wrapper writes the line that no
header was found and no preview. -/
theorem payment_preview_logged (handler : Handler) (x : Exchange) (r : Request)
    (h : GoString) (hh : r.Header.Get (ascii "X-Payment") = h) :
    (h ≠ [] →
      sliceTo h (min 100 (len h)) = some (h.take (min 100 (len h)).toNat) ∧
      h.take (min 100 (len h)).toNat <+: h ∧
      (h.take (min 100 (len h)).toNat).length ≤ 100 ∧
      (100 < h.length →
        h.take (min 100 (len h)).toNat = h.take 100 ∧
        (h.take (min 100 (len h)).toNat).length = 100) ∧
      ∃ rest,
        (loggingHandler handler x r).state.log =
          x.log ++
            [{ format := "[REQUEST] %s %s", args := [.str r.Method, .str r.Path] },
             { format := "[PAYMENT] Received X-Payment header (length: %d bytes)",
               args := [.int (len h)] },
             { format := "[PAYMENT] Payment data preview: %s...",
               args := [.str (h.take (min 100 (len h)).toNat)] }] ++ rest ∧
        ∀ e ∈ rest, e.format = "[RESPONSE] Status: %d") ∧
    (h = [] →
      ∃ rest,
        (loggingHandler handler x r).state.log =
          x.log ++
            [{ format := "[REQUEST] %s %s", args := [.str r.Method, .str r.Path] },
             { format := "[PAYMENT] No X-Payment header found", args := [] }] ++ rest ∧
        ∀ e ∈ rest, e.format = "[RESPONSE] Status: %d") := by
  obtain ⟨rest, hlog, hrest⟩ := loggingHandler_log handler x r
  constructor
  · intro hne
    refine ⟨sliceTo_min_len h, ?_, ?_, ?_, rest, ?_, hrest⟩
    · exact List.take_prefix _ _
    · rw [take_min_len, List.length_take]; omega
    · intro hlt
      rw [take_min_len, List.length_take]
      exact ⟨rfl, by omega⟩
    · rw [hlog, take_min_len]
      simp [requestLog, hh, hne]
  · intro he
    refine ⟨rest, ?_, hrest⟩
    rw [hlog]
    simp [requestLog, hh, he]

theorem payment_preview_logged_witness :
    ∃ rest,
      (loggingHandler jsonHandler (Exchange.start []) getRickrollShortProof).state.log =
        [{ format := "[REQUEST] %s %s",
           args := [.str (ascii "GET"), .str (ascii "/v1/rickroll")] },
         { format := "[PAYMENT] Received X-Payment header (length: %d bytes)",
           args := [.int 3] },
         { format := "[PAYMENT] Payment data preview: %s...",
           args := [.str (ascii "abc")] }] ++ rest ∧
      ∀ e ∈ rest, e.format = "[RESPONSE] Status: %d" :=
  ((payment_preview_logged jsonHandler (Exchange.start []) getRickrollShortProof
    (ascii "abc") (by decide)).1 (by decide)).2.2.2.2

/-- Claim C9, as stated, fails for a short header: for `X-Payment: abc` the preview the
logging wrapper writes is `abc`, the whole value of the header. -/
theorem short_payment_header_logged_whole :
    getRickrollShortProof.Header.Get (ascii "X-Payment") = ascii "abc" ∧
    (loggingHandler silentHandler (Exchange.start []) getRickrollShortProof).state.log =
      [{ format := "[REQUEST] %s %s",
         args := [.str (ascii "GET"), .str (ascii "/v1/rickroll")] },
       { format := "[PAYMENT] Received X-Payment header (length: %d bytes)",
         args := [.int 3] },
       { format := "[PAYMENT] Payment data preview: %s...",
         args := [.str (ascii "abc")] },
       { format := "[RESPONSE] Status: %d", args := [.int 200] }] := by
  decide

/-- Claim C9, amended. For a non-empty `X-Payment` value `h` the preview the logging
wrapper writes is a prefix of `h` of at most 100 bytes; it is the whole of `h` exactly
when `h` has at most 100 bytes, so of a header of more than 100 bytes only the first 100
bytes are written and never the whole value. -/
theorem payment_preview_capped (handler : Handler) (x : Exchange) (r : Request)
    (h : GoString) (hh : r.Header.Get (ascii "X-Payment") = h) (hne : h ≠ []) :
    ∃ preview rest,
      (loggingHandler handler x r).state.log =
        x.log ++
          [{ format := "[REQUEST] %s %s", args := [.str r.Method, .str r.Path] },
           { format := "[PAYMENT] Received X-Payment header (length: %d bytes)",
             args := [.int (len h)] },
           { format := "[PAYMENT] Payment data preview: %s...",
             args := [.str preview] }] ++ rest ∧
      (∀ e ∈ rest, e.format = "[RESPONSE] Status: %d") ∧
      preview <+: h ∧
      preview.length ≤ 100 ∧
      (preview = h ↔ h.length ≤ 100) ∧
      (100 < h.length → preview = h.take 100 ∧ preview ≠ h) := by
  obtain ⟨rest, hlog, hrest⟩ := loggingHandler_log handler x r
  refine ⟨h.take 100, rest, ?_, hrest, ?_, ?_, take_100_eq_iff h, ?_⟩
  · rw [hlog]
    simp [requestLog, hh, hne]
  · exact List.take_prefix _ _
  · rw [List.length_take]; omega
  · intro hlt
    refine ⟨rfl, ?_⟩
    intro he
    have := (take_100_eq_iff h).mp he
    omega

theorem payment_preview_capped_witness :
    ∃ preview rest,
      (loggingHandler jsonHandler (Exchange.start []) getRickrollLongProof).state.log =
        [{ format := "[REQUEST] %s %s",
           args := [.str (ascii "GET"), .str (ascii "/v1/rickroll")] },
         { format := "[PAYMENT] Received X-Payment header (length: %d bytes)",
           args := [.int 120] },
         { format := "[PAYMENT] Payment data preview: %s...",
           args := [.str preview] }] ++ rest ∧
      preview.length ≤ 100 ∧
      preview ≠ List.replicate 120 (120 : UInt8) := by
  obtain ⟨preview, rest, h1, _, _, h4, _, h6⟩ :=
    payment_preview_capped jsonHandler (Exchange.start []) getRickrollLongProof
      (List.replicate 120 (120 : UInt8)) (by decide) (by decide)
  exact ⟨preview, rest, h1, h4, (h6 (by decide)).2⟩

/-- The logging wrapper records the code of a `WriteHeader` call also when the response
writer below ignores the call: for an inner handler that writes body bytes and calls
`WriteHeader(500)` afterwards, which does not set its status once, the wrapper logs 500
and the status sent is 200. -/
theorem late_WriteHeader_logged_not_sent :
    setsStatusOnce (lateStatusHandler getRickrollBare) = false ∧
    (serveHTTP lateStatusHandler [] getRickrollBare).state.log.getLast?
      = some { format := "[RESPONSE] Status: %d", args := [.int 500] } ∧
    (serveHTTP lateStatusHandler [] getRickrollBare).state.w.wroteHeader = true ∧
    (serveHTTP lateStatusHandler [] getRickrollBare).state.w.status = 200 := by
  decide

end RickRoll
